import Mathlib

/-!
Shallow embedding of `reddit_scraper/__main__.py` (class `RedditScraper`):
the pagination loop `fetch_posts` and the per-post download loop
`download_posts`, together with theorems checking the specification's
claims about them.

Network and filesystem are modelled as oracles supplied to the functions:
the listing endpoint is a list of `Response` values consumed one per page
request, the media endpoint is a function from URL to `MediaResult`, and
the success of each file write is a function from path to `Bool`.
-/

namespace RedditScraper

/-- The fields of a post's `data` object that the code inspects: `url` and
`id` are optional JSON fields; `payload` stands for the remaining fields,
preserved verbatim when metadata is persisted. -/
structure PostData where
  url : Option String
  id : Option String
  payload : String
deriving DecidableEq, Repr

/-- One element of `data.children` in a listing response: an object whose
`data` field holds the post's data. -/
structure Child where
  data : PostData
deriving DecidableEq, Repr

/-- One page request's outcome at the transport boundary.
`transportError` models a `requests.RequestException` (network failure, or a
non-2xx status raised by `raise_for_status`); `body` models a parsed JSON
body with its optional top-level `error` field, its `data.children` list and
its `data.after` cursor (`none` is JSON null, the end-of-listing sentinel). -/
inductive Response where
  | transportError
  | body (error : Option Int) (children : List Child) (after : Option String)
deriving DecidableEq, Repr

/-- The log lines the code emits through `logging.error`. -/
inductive LogMsg where
  | userNotFound
  | fetchError
  | downloadError (url : String)
deriving DecidableEq, Repr

/-- The constructor arguments of `RedditScraper.__init__`. -/
structure ScraperConfig where
  limit_per_page : Nat
  destination : String
  quiet : Bool
  limit : Nat
  include_metadata : Bool
deriving DecidableEq, Repr

/-- Everything observable about one run of `fetch_posts`: the returned
value (`none` is Python `None`), the `limit` query parameter of each page
request issued in order, the log lines, and whether the supplied response
trace ran out while the loop still wanted another page (a model artifact:
the real service always answers). -/
structure FetchTrace where
  result : Option (List Child)
  requests : List Nat
  logs : List LogMsg
  exhausted : Bool
deriving DecidableEq, Repr

/-- Python's `min(self.limit_per_page, self.limit or self.limit_per_page)`:
`or` takes `limit_per_page` when `limit` is falsy (zero). -/
def pageSize (cfg : ScraperConfig) : Nat :=
  min cfg.limit_per_page (if cfg.limit = 0 then cfg.limit_per_page else cfg.limit)

/-- The inner `for child in data['data']['children']` loop: append each
child and increment `count`; `if self.limit != 0 and count >= self.limit:
break` stops mid-page. Returns the new `posts_json` and `count`. -/
def appendChildren (limit : Nat) (children : List Child) (acc : List Child)
    (count : Nat) : List Child × Nat :=
  match children with
  | [] => (acc, count)
  | c :: rest =>
      let acc2 := acc ++ [c]
      let count2 := count + 1
      if limit ≠ 0 ∧ limit ≤ count2 then (acc2, count2)
      else appendChildren limit rest acc2 count2

/-- The `while after is not None and (self.limit == 0 or count < self.limit)`
loop of `fetch_posts`, recursing over the trace of responses the service
returns. `afterSome` is whether the current cursor is not `None` (it starts
`True`: the initial cursor is the empty string). Each iteration records the
requested page size; a `transportError` response is the `except
requests.RequestException` branch (log and return `None`), a body with
`error == 404` is the not-found branch (log and return `None`); otherwise the
children are appended (with mid-page truncation) and the cursor advances to
the body's `after`. -/
def fetchLoop (cfg : ScraperConfig) (pages : List Response) (afterSome : Bool)
    (acc : List Child) (count : Nat) (reqs : List Nat) (logs : List LogMsg) :
    FetchTrace :=
  if afterSome = true ∧ (cfg.limit = 0 ∨ count < cfg.limit) then
    match pages with
    | [] => ⟨none, reqs, logs, true⟩
    | p :: rest =>
        let reqs2 := reqs ++ [pageSize cfg]
        match p with
        | .transportError => ⟨none, reqs2, logs ++ [.fetchError], false⟩
        | .body err children after =>
            if err = some 404 then
              ⟨none, reqs2, logs ++ [.userNotFound], false⟩
            else
              let s := appendChildren cfg.limit children acc count
              fetchLoop cfg rest after.isSome s.1 s.2 reqs2 logs
  else
    ⟨some acc, reqs, logs, false⟩

/-- The method `RedditScraper.fetch_posts(username)`, run against a trace of listing
responses: `after = ''`, `posts_json = []`, `count = 0`, then the page
loop. -/
def fetch_posts (cfg : ScraperConfig) (pages : List Response) : FetchTrace :=
  fetchLoop cfg pages true [] 0 [] []

/-- The `data.children` list of a response body (empty for a transport
error, which carries no body). -/
def pageChildren : Response → List Child
  | .transportError => []
  | .body _ children _ => children

/-- All post records the trace holds, pages in order, records within a page
in order. -/
def allChildren (pages : List Response) : List Child :=
  (pages.map pageChildren).flatten

/-- Total post count of the trace. -/
def totalPosts (pages : List Response) : Nat :=
  (allChildren pages).length

/-- A response the pagination loop passes through without stopping: a body,
no structured 404, and a non-null next cursor. -/
def goodPage : Response → Bool
  | .transportError => false
  | .body err _ after => decide (err ≠ some 404) && after.isSome

/-- A well-formed complete listing: at least one page, every page a body
without a 404, every page but the last with a non-null cursor, the last
page's cursor null. -/
def wfListing : List Response → Bool
  | [] => false
  | .transportError :: _ => false
  | .body err _ after :: rest =>
      decide (err ≠ some 404) &&
        match rest with
        | [] => after.isNone
        | _ :: _ => after.isSome && wfListing rest

/-- Python's `url.rsplit('/', 1)[-1]` character by character: the characters after
the last `/`, the whole string when there is no `/`. -/
def lastSegAux (cs : List Char) (cur : List Char) : List Char :=
  match cs with
  | [] => cur
  | ch :: rest => if ch = '/' then lastSegAux rest [] else lastSegAux rest (cur ++ [ch])

/-- The assignment `filename = url.rsplit('/', 1)[-1]`. -/
def lastSegment (url : String) : String :=
  ⟨lastSegAux url.data []⟩

/-- The test `not filename or '.' not in filename`: the policy check that skips URLs
whose final segment is empty or carries no extension. -/
def skipFilename (url : String) : Bool :=
  (lastSegment url).data.isEmpty || !((lastSegment url).data.contains '.')

/-- One media GET's outcome: `transportError` is a `requests.RequestException`
(network failure or non-2xx raised by `raise_for_status`), `ok` a 2xx
response with its body bytes. -/
inductive MediaResult where
  | transportError
  | ok (content : String)
deriving DecidableEq, Repr

/-- What a file write puts on disk: media bytes, or the JSON serialization of
the post's `data` object. -/
inductive FileContent where
  | media (content : String)
  | meta (d : PostData)
deriving DecidableEq, Repr

/-- How `download_posts` returns: normally, or unwound by an uncaught
`KeyError` from `post_json['data']['id']` (the `except` clause catches only
`requests.RequestException` and `IOError`). -/
inductive DownloadResult where
  | completed
  | keyError
deriving DecidableEq, Repr

/-- Everything observable about one loop iteration of `download_posts` for a
single post: the media GETs issued, the file writes performed (path and
content, in order), the log lines, and whether a `KeyError` escaped. -/
structure ItemTrace where
  gets : List String
  writes : List (String × FileContent)
  logs : List LogMsg
  keyErr : Bool
deriving DecidableEq, Repr

/-- Everything observable about one run of `download_posts`. -/
structure DownloadTrace where
  gets : List String
  writes : List (String × FileContent)
  logs : List LogMsg
  result : DownloadResult
deriving DecidableEq, Repr

/-- A `continue`d iteration: no GET, no write, no log. -/
def skipped : ItemTrace := ⟨[], [], [], false⟩

/-- The path `download_dir / filename`. -/
def mediaPath (dir : String) (filename : String) : String :=
  dir ++ "/" ++ filename

/-- The path of the metadata file: the download directory joined with the id plus a json suffix. -/
def metaPath (dir : String) (pid : String) : String :=
  dir ++ "/" ++ pid ++ ".json"

/-- One iteration of the `for post_json in tqdm(posts_json, ...)` loop:
skip when `'url' not in post_json['data']`; compute `filename`; skip when it
is empty or has no `.`; GET the url; on success write the media bytes to
`download_dir / filename`; when `include_metadata`, read
`post_json['data']['id']` (a missing key raises `KeyError`, uncaught) and
write the JSON of the data object to `download_dir / {id}.json`. A
`RequestException` from the GET or an `IOError` from either write is caught
and logged, and the iteration ends. -/
def processPost (cfg : ScraperConfig) (dir : String) (media : String → MediaResult)
    (writeOk : String → Bool) (post : Child) : ItemTrace :=
  match post.data.url with
  | none => skipped
  | some url =>
      let filename := lastSegment url
      if skipFilename url then skipped
      else
        match media url with
        | .transportError => ⟨[url], [], [.downloadError url], false⟩
        | .ok content =>
            if writeOk (mediaPath dir filename) = false then
              ⟨[url], [], [.downloadError url], false⟩
            else
              let mw := (mediaPath dir filename, FileContent.media content)
              if cfg.include_metadata then
                match post.data.id with
                | none => ⟨[url], [mw], [], true⟩
                | some pid =>
                    if writeOk (metaPath dir pid) = false then
                      ⟨[url], [mw], [.downloadError url], false⟩
                    else
                      ⟨[url], [mw, (metaPath dir pid, FileContent.meta post.data)],
                        [], false⟩
              else ⟨[url], [mw], [], false⟩

/-- The download loop over the materialized post list: iterations run in
list order; an uncaught `KeyError` aborts the loop at that post, anything
else proceeds to the next post. -/
def downloadLoop (cfg : ScraperConfig) (dir : String) (media : String → MediaResult)
    (writeOk : String → Bool) : List Child → DownloadTrace
  | [] => ⟨[], [], [], .completed⟩
  | p :: rest =>
      let it := processPost cfg dir media writeOk p
      if it.keyErr then ⟨it.gets, it.writes, it.logs, .keyError⟩
      else
        let t := downloadLoop cfg dir media writeOk rest
        ⟨it.gets ++ t.gets, it.writes ++ t.writes, it.logs ++ t.logs, t.result⟩

/-- The directory `download_dir = self.destination / username`. -/
def downloadDir (cfg : ScraperConfig) (username : String) : String :=
  cfg.destination ++ "/" ++ username

/-- The method `RedditScraper.download_posts(username)`: fetch the posts; `if not
posts_json: return` (both `None` and the empty list); otherwise create the
download directory (not a file write) and run the download loop. -/
def download_posts (cfg : ScraperConfig) (username : String) (pages : List Response)
    (media : String → MediaResult) (writeOk : String → Bool) : DownloadTrace :=
  match (fetch_posts cfg pages).result with
  | none => ⟨[], [], [], .completed⟩
  | some posts =>
      if posts.isEmpty then ⟨[], [], [], .completed⟩
      else downloadLoop cfg (downloadDir cfg username) media writeOk posts

/-- The URL the loop issues a media GET for, for a given post: present
exactly when the post passes the url-presence and filename checks. -/
def attemptedUrl (post : Child) : Option String :=
  match post.data.url with
  | none => none
  | some url =>
      if skipFilename url then none
      else some url

/-! ### Concrete fixtures used to instantiate the claims -/

/-- A post record carrying only an opaque payload tag. -/
def sampleChild (tag : String) : Child := ⟨⟨none, none, tag⟩⟩

/-- Per-page cap 2, limit 3. -/
def cfgC1 : ScraperConfig := ⟨2, "/dst", false, 3, false⟩

/-- Two pages of two posts each (total 4 > limit 3), cursors non-null. -/
def pagesC1 : List Response :=
  [Response.body none [sampleChild "a", sampleChild "b"] (some "t1"),
   Response.body none [sampleChild "c", sampleChild "d"] (some "t2")]

/-- Per-page cap 2, limit 3. -/
def cfgC2 : ScraperConfig := ⟨2, "/dst", false, 3, false⟩

/-- A page of two posts, then a page of one post ending the listing. -/
def pagesC2 : List Response :=
  [Response.body none [sampleChild "a", sampleChild "b"] (some "t1"),
   Response.body none [sampleChild "c"] none]

/-- Unlimited (limit 0). -/
def cfgC3 : ScraperConfig := ⟨100, "/dst", false, 0, false⟩

/-- One good page before the failure. -/
def psC3 : List Response := [Response.body none [sampleChild "a"] (some "t")]

/-- Unlimited, metadata on. -/
def cfgC4 : ScraperConfig := ⟨100, "/dst", false, 0, true⟩

/-- One good page (two records) before the 404 page. -/
def psC4 : List Response :=
  [Response.body none [sampleChild "a", sampleChild "b"] (some "t")]

/-- A media endpoint that always answers 2xx with body "BYTES". -/
def mediaOkAll : String → MediaResult := fun _ => MediaResult.ok "BYTES"

/-- A filesystem on which every write succeeds. -/
def writeAll : String → Bool := fun _ => true

/-- Metadata on, unlimited. -/
def cfgC5 : ScraperConfig := ⟨100, "/dst", false, 0, true⟩

/-- A post whose media GET will fail. -/
def postA5 : Child := ⟨⟨some "https://x.com/a.jpg", some "ida", ""⟩⟩

/-- A post whose media GET will succeed. -/
def postB5 : Child := ⟨⟨some "https://x.com/b.jpg", some "idb", ""⟩⟩

/-- A media endpoint failing exactly on `a.jpg`. -/
def mediaC5 : String → MediaResult := fun u =>
  if u = "https://x.com/a.jpg" then MediaResult.transportError else MediaResult.ok "B"

/-- Metadata on, unlimited. -/
def cfgC6 : ScraperConfig := ⟨100, "/dst", false, 0, true⟩

/-- A post whose URL's final segment has no dot (a gallery page). -/
def postC6 : Child := ⟨⟨some "https://example.com/gallery", some "g1", ""⟩⟩

/-- Metadata on, unlimited. -/
def cfgC7 : ScraperConfig := ⟨100, "/dst", false, 0, true⟩

/-- A direct-file post with an id. -/
def postC7 : Child := ⟨⟨some "https://example.com/img/abc123.jpg", some "t3_xyz", "pl"⟩⟩

/-- Metadata on, unlimited. -/
def cfgC9 : ScraperConfig := ⟨100, "/dst", false, 0, true⟩

/-- A well-formed post before the bad one. -/
def postPre9 : Child := ⟨⟨some "https://x.com/a.jpg", some "ida", ""⟩⟩

/-- A post with a url but no `id` key: triggers `KeyError` under metadata. -/
def postBad9 : Child := ⟨⟨some "https://x.com/b.jpg", none, ""⟩⟩

/-- A post after the bad one, never attempted. -/
def postAfter9 : Child := ⟨⟨some "https://x.com/c.jpg", some "idc", ""⟩⟩

/-- Metadata on, unlimited. -/
def cfgC10 : ScraperConfig := ⟨100, "/dst", false, 0, true⟩

/-- A post whose metadata write will fail while its media write succeeds. -/
def postMid10 : Child := ⟨⟨some "https://x.com/m.png", some "mid", ""⟩⟩

/-- A filesystem on which only the write of `/dl/mid.json` fails. -/
def writeC10 : String → Bool := fun path => !(path = "/dl/mid.json")

/-- Per-page cap 2, unlimited. -/
def cfgC8 : ScraperConfig := ⟨2, "/dst", false, 0, false⟩

/-- A complete two-page listing: one post then two, null final cursor. -/
def pagesC8 : List Response :=
  [Response.body none [sampleChild "a"] (some "t"),
   Response.body none [sampleChild "b", sampleChild "c"] none]

/-! ### Lemmas about the pagination loop -/

theorem appendChildren_limit_zero (children : List Child) :
    ∀ acc count, appendChildren 0 children acc count = (acc ++ children, count + children.length) := by
  induction children with
  | nil => intro acc count; simp [appendChildren]
  | cons c rest ih =>
      intro acc count
      simp only [appendChildren, ne_eq, not_true_eq_false, false_and, if_false]
      rw [ih]
      rw [Prod.mk.injEq]
      refine ⟨by simp, by simp; omega⟩

/-- When the whole page fits under the remaining quota, the inner loop never
breaks: all children are appended. -/
theorem appendChildren_short (L : Nat) (children : List Child) :
    ∀ acc count, L ≠ 0 → count + children.length < L →
      appendChildren L children acc count = (acc ++ children, count + children.length) := by
  induction children with
  | nil => intro acc count _ _; simp [appendChildren]
  | cons c rest ih =>
      intro acc count hL hlt
      simp only [List.length_cons] at hlt
      have hcond : ¬(¬L = 0 ∧ L ≤ count + 1) := by
        intro hc; omega
      simp only [appendChildren, ne_eq, hcond, if_false]
      rw [ih (acc ++ [c]) (count + 1) hL (by omega)]
      rw [Prod.mk.injEq]
      refine ⟨by simp, by simp; omega⟩

/-- When the page holds at least the remaining quota, the inner loop breaks
exactly at the limit, keeping the page's first `L - count` children. -/
theorem appendChildren_reach (L : Nat) (children : List Child) :
    ∀ acc count, count < L → L ≤ count + children.length →
      appendChildren L children acc count = (acc ++ children.take (L - count), L) := by
  induction children with
  | nil => intro acc count h1 h2; simp at h2; omega
  | cons c rest ih =>
      intro acc count hlt hge
      by_cases hstop : L ≤ count + 1
      · have hL1 : L = count + 1 := by omega
        have hcond : ¬L = 0 ∧ L ≤ count + 1 := ⟨by omega, hstop⟩
        simp only [appendChildren, ne_eq]
        rw [if_pos hcond]
        have h1 : L - count = 1 := by omega
        rw [h1]
        simp only [List.take_succ_cons, List.take_zero]
        rw [Prod.mk.injEq]
        exact ⟨rfl, by omega⟩
      · have hcond : ¬(¬L = 0 ∧ L ≤ count + 1) := by
          intro hc; exact hstop hc.2
        simp only [appendChildren, ne_eq, hcond, if_false]
        rw [ih (acc ++ [c]) (count + 1) (by omega)
          (by simp only [List.length_cons] at hge; omega)]
        have h2 : L - count = (L - (count + 1)) + 1 := by omega
        rw [h2]
        simp only [List.take_succ_cons]
        rw [Prod.mk.injEq]
        refine ⟨by simp, rfl⟩

theorem totalPosts_cons (p : Response) (rest : List Response) :
    totalPosts (p :: rest) = (pageChildren p).length + totalPosts rest := by
  simp [totalPosts, allChildren]

theorem allChildren_cons (p : Response) (rest : List Response) :
    allChildren (p :: rest) = pageChildren p ++ allChildren rest := by
  simp [allChildren]

/-- Passing through a prefix of good pages (bodies with no 404 and a non-null
cursor) that does not recover the whole quota: the loop consumes them,
accumulating their children in order and recording one request per page. -/
theorem fetchLoop_append_good (cfg : ScraperConfig) (ps : List Response) :
    ∀ rest acc count reqs logs,
      (∀ p ∈ ps, goodPage p = true) →
      (cfg.limit = 0 ∨ count + totalPosts ps < cfg.limit) →
      fetchLoop cfg (ps ++ rest) true acc count reqs logs
        = fetchLoop cfg rest true (acc ++ allChildren ps) (count + totalPosts ps)
            (reqs ++ List.replicate ps.length (pageSize cfg)) logs := by
  induction ps with
  | nil =>
      intro rest acc count reqs logs _ _
      simp [allChildren, totalPosts]
  | cons p ps' ih =>
      intro rest acc count reqs logs hgood hquota
      have htot : totalPosts (p :: ps') = (pageChildren p).length + totalPosts ps' :=
        totalPosts_cons p ps'
      have hp : goodPage p = true := hgood p (List.mem_cons_self p ps')
      cases p with
      | transportError => simp [goodPage] at hp
      | body err children after =>
          simp only [goodPage, Bool.and_eq_true, decide_eq_true_eq] at hp
          obtain ⟨herr, hsome⟩ := hp
          simp only [pageChildren] at htot
          have hguard : (true = true ∧ (cfg.limit = 0 ∨ count < cfg.limit)) := by
            refine ⟨rfl, ?_⟩
            rcases hquota with h0 | hlt
            · exact Or.inl h0
            · right; omega
          rw [List.cons_append, fetchLoop, if_pos hguard]
          simp only [herr, if_false]
          have happ : appendChildren cfg.limit children acc count
              = (acc ++ children, count + children.length) := by
            by_cases h0 : cfg.limit = 0
            · rw [h0]; exact appendChildren_limit_zero children acc count
            · have hlt : count + totalPosts (Response.body err children after :: ps')
                  < cfg.limit := by
                rcases hquota with h | h
                · exact absurd h h0
                · exact h
              exact appendChildren_short cfg.limit children acc count h0 (by omega)
          rw [happ, hsome]
          rw [ih rest (acc ++ children) (count + children.length)
            (reqs ++ [pageSize cfg]) logs
            (fun q hq => hgood q (List.mem_cons_of_mem _ hq))
            (by
              rcases hquota with h | h
              · exact Or.inl h
              · right; omega)]
          have h1 : acc ++ children ++ allChildren ps'
              = acc ++ allChildren (Response.body err children after :: ps') := by
            rw [allChildren_cons]
            simp [pageChildren]
          have h2 : count + children.length + totalPosts ps'
              = count + totalPosts (Response.body err children after :: ps') := by
            omega
          have h3 : reqs ++ [pageSize cfg] ++ List.replicate ps'.length (pageSize cfg)
              = reqs ++ List.replicate (ps'.length + 1) (pageSize cfg) := by
            rw [List.append_assoc, List.replicate_succ]
            rfl
          rw [h1, h2]
          simp only [List.length_cons]
          rw [h3]

/-- With a nonzero limit, good pages and enough posts coming, the loop
returns exactly the first `limit - count` of the remaining records. -/
theorem fetchLoop_reaches_limit (cfg : ScraperConfig) (hL : cfg.limit ≠ 0) :
    ∀ (pages : List Response) (acc : List Child) (count : Nat) (reqs : List Nat)
      (logs : List LogMsg),
      (∀ p ∈ pages, goodPage p = true) →
      count < cfg.limit →
      cfg.limit ≤ count + totalPosts pages →
      (fetchLoop cfg pages true acc count reqs logs).result
        = some (acc ++ (allChildren pages).take (cfg.limit - count)) := by
  intro pages
  induction pages with
  | nil =>
      intro acc count reqs logs _ hlt hge
      simp [totalPosts, allChildren] at hge
      omega
  | cons p rest ih =>
      intro acc count reqs logs hgood hlt hge
      have htot : totalPosts (p :: rest) = (pageChildren p).length + totalPosts rest :=
        totalPosts_cons p rest
      have hp : goodPage p = true := hgood p (List.mem_cons_self p rest)
      cases p with
      | transportError => simp [goodPage] at hp
      | body err children after =>
          simp only [goodPage, Bool.and_eq_true, decide_eq_true_eq] at hp
          obtain ⟨herr, hsome⟩ := hp
          simp only [pageChildren] at htot
          rw [fetchLoop, if_pos ⟨rfl, Or.inr hlt⟩]
          simp only [herr, if_false]
          rw [allChildren_cons]
          simp only [pageChildren]
          by_cases hreach : cfg.limit ≤ count + children.length
          · rw [appendChildren_reach cfg.limit children acc count hlt hreach]
            rw [fetchLoop.eq_def, if_neg (by
              intro hc
              rcases hc.2 with h | h
              · exact hL h
              · omega)]
            rw [List.take_append_of_le_length (by omega)]
          · push_neg at hreach
            rw [appendChildren_short cfg.limit children acc count hL hreach, hsome]
            rw [ih (acc ++ children) (count + children.length) (reqs ++ [pageSize cfg])
              logs (fun q hq => hgood q (List.mem_cons_of_mem _ hq)) (by omega) (by omega)]
            rw [List.take_append_eq_append_take]
            rw [List.take_of_length_le (by omega : children.length ≤ cfg.limit - count)]
            have : cfg.limit - count - children.length
                = cfg.limit - (count + children.length) := by omega
            rw [this, List.append_assoc]

/-- Whatever the trace, a returned post list never grows past a nonzero
limit: the loop guard and the mid-page break keep `count ≤ limit`, and the
accumulator and `count` grow in lockstep. -/
theorem fetchLoop_length_le (cfg : ScraperConfig) (hL : cfg.limit ≠ 0) :
    ∀ (pages : List Response) (b : Bool) (acc : List Child) (count : Nat)
      (reqs : List Nat) (logs : List LogMsg) (l : List Child),
      count ≤ cfg.limit →
      (fetchLoop cfg pages b acc count reqs logs).result = some l →
      l.length + count ≤ acc.length + cfg.limit := by
  intro pages
  induction pages with
  | nil =>
      intro b acc count reqs logs l hle hres
      rw [fetchLoop] at hres
      by_cases hg : b = true ∧ (cfg.limit = 0 ∨ count < cfg.limit)
      · rw [if_pos hg] at hres; simp at hres
      · rw [if_neg hg] at hres
        simp only [FetchTrace.mk.injEq, Option.some.injEq] at hres
        subst hres
        omega
  | cons p rest ih =>
      intro b acc count reqs logs l hle hres
      rw [fetchLoop] at hres
      by_cases hg : b = true ∧ (cfg.limit = 0 ∨ count < cfg.limit)
      · rw [if_pos hg] at hres
        have hlt : count < cfg.limit := by
          rcases hg.2 with h | h
          · exact absurd h hL
          · exact h
        cases p with
        | transportError => simp at hres
        | body err children after =>
            by_cases h404 : err = some 404
            · simp only [h404, if_true] at hres
              simp at hres
            · simp only [h404, if_false] at hres
              by_cases hreach : cfg.limit ≤ count + children.length
              · rw [appendChildren_reach cfg.limit children acc count hlt hreach] at hres
                have := ih after.isSome (acc ++ children.take (cfg.limit - count))
                  cfg.limit (reqs ++ [pageSize cfg]) logs l (le_refl _) hres
                simp only [List.length_append, List.length_take] at this
                omega
              · push_neg at hreach
                rw [appendChildren_short cfg.limit children acc count hL hreach] at hres
                have := ih after.isSome (acc ++ children) (count + children.length)
                  (reqs ++ [pageSize cfg]) logs l (by omega) hres
                simp only [List.length_append] at this
                omega
      · rw [if_neg hg] at hres
        simp only [FetchTrace.mk.injEq, Option.some.injEq] at hres
        subst hres
        omega

/-- With limit 0 (unlimited) and a well-formed complete listing, the loop
walks every page, returns all records and stops at the null cursor. -/
theorem fetchLoop_unlimited (cfg : ScraperConfig) (h0 : cfg.limit = 0) :
    ∀ (pages : List Response) (acc : List Child) (count : Nat) (reqs : List Nat)
      (logs : List LogMsg),
      wfListing pages = true →
      fetchLoop cfg pages true acc count reqs logs
        = ⟨some (acc ++ allChildren pages),
            reqs ++ List.replicate pages.length (pageSize cfg), logs, false⟩ := by
  intro pages
  induction pages with
  | nil => intro acc count reqs logs hwf; simp [wfListing] at hwf
  | cons p rest ih =>
      intro acc count reqs logs hwf
      cases p with
      | transportError => simp [wfListing] at hwf
      | body err children after =>
          rw [fetchLoop, if_pos ⟨rfl, Or.inl h0⟩]
          simp only [wfListing, Bool.and_eq_true, decide_eq_true_eq] at hwf
          obtain ⟨herr, hrest⟩ := hwf
          simp only [herr, if_false]
          rw [h0, appendChildren_limit_zero children acc count]
          cases rest with
          | nil =>
              have hnone : after = none := by
                cases after with
                | none => rfl
                | some a => simp [Option.isNone] at hrest
              rw [hnone]
              rw [fetchLoop, if_neg (by intro hc; exact Bool.false_ne_true hc.1)]
              rw [allChildren_cons]
              simp [pageChildren, List.replicate_succ, allChildren]
          | cons q rest' =>
              simp only [Bool.and_eq_true] at hrest
              obtain ⟨hsome, hwf'⟩ := hrest
              rw [hsome]
              rw [ih (acc ++ children) (count + children.length) (reqs ++ [pageSize cfg])
                logs hwf']
              simp only [allChildren_cons, pageChildren]
              simp [List.replicate_succ]

/-- One loop iteration on a transport-level failure: the request is issued,
the exception handler logs a fetch error and `fetch_posts` returns `None`. -/
theorem fetchLoop_transportError (cfg : ScraperConfig) (rest : List Response)
    (acc : List Child) (count : Nat) (reqs : List Nat) (logs : List LogMsg)
    (hactive : cfg.limit = 0 ∨ count < cfg.limit) :
    fetchLoop cfg (Response.transportError :: rest) true acc count reqs logs
      = ⟨none, reqs ++ [pageSize cfg], logs ++ [LogMsg.fetchError], false⟩ := by
  rw [fetchLoop, if_pos ⟨rfl, hactive⟩]

/-- One loop iteration on a body whose structured `error` field is 404: the
code logs and returns `None`, dropping the accumulator. -/
theorem fetchLoop_notFound (cfg : ScraperConfig) (children : List Child)
    (after : Option String) (rest : List Response) (acc : List Child) (count : Nat)
    (reqs : List Nat) (logs : List LogMsg)
    (hactive : cfg.limit = 0 ∨ count < cfg.limit) :
    fetchLoop cfg (Response.body (some 404) children after :: rest) true acc count reqs logs
      = ⟨none, reqs ++ [pageSize cfg], logs ++ [LogMsg.userNotFound], false⟩ := by
  rw [fetchLoop, if_pos ⟨rfl, hactive⟩]
  simp

/-! ### Lemmas about the download loop -/

theorem attemptedUrl_eq_some (p : Child) (url : String) (h : attemptedUrl p = some url) :
    p.data.url = some url ∧ skipFilename url = false := by
  rcases p with ⟨⟨u0, pid, payload⟩⟩
  cases u0 with
  | none => simp [attemptedUrl] at h
  | some u =>
      simp only [attemptedUrl] at h
      by_cases hf : skipFilename u = true
      · rw [if_pos hf] at h; cases h
      · rw [if_neg hf] at h
        injection h with h2
        subst h2
        exact ⟨rfl, by simpa using hf⟩

/-- The two `continue` checks fire before any network call or write: a post
with no url, or with an empty or extension-less filename, contributes
nothing at all. -/
theorem processPost_skip (cfg : ScraperConfig) (dir : String)
    (media : String → MediaResult) (writeOk : String → Bool) (p : Child)
    (h : p.data.url = none ∨ ∃ url, p.data.url = some url ∧ skipFilename url = true) :
    processPost cfg dir media writeOk p = skipped := by
  rcases p with ⟨⟨u0, pid, payload⟩⟩
  rcases h with h | ⟨url, hu, hskip⟩
  · simp only at h
    subst h
    rfl
  · simp only at hu
    subst hu
    simp only [processPost]
    rw [if_pos hskip]

/-- A `KeyError` can escape only with metadata enabled and the `id` key
missing. -/
theorem processPost_keyErr_imp (cfg : ScraperConfig) (dir : String)
    (media : String → MediaResult) (writeOk : String → Bool) (p : Child) :
    (processPost cfg dir media writeOk p).keyErr = true →
    cfg.include_metadata = true ∧ p.data.id = none := by
  rcases p with ⟨⟨u0, pid, payload⟩⟩
  cases u0 with
  | none => intro h; simp [processPost, skipped] at h
  | some u =>
      intro h
      by_cases hf : skipFilename u = true
      · simp [processPost, hf, skipped] at h
      · cases hm : media u with
        | transportError => simp [processPost, hf, hm] at h
        | ok content =>
            cases hw : writeOk (mediaPath dir (lastSegment u)) with
            | false => simp [processPost, hf, hm, hw] at h
            | true =>
                by_cases hmeta : cfg.include_metadata = true
                · cases pid with
                  | none => exact ⟨hmeta, rfl⟩
                  | some i =>
                      cases hw2 : writeOk (metaPath dir i) with
                      | false => simp [processPost, hf, hm, hw, hw2, hmeta] at h
                      | true => simp [processPost, hf, hm, hw, hw2, hmeta] at h
                · simp [processPost, hf, hm, hw, hmeta] at h

/-- A post that carries an `id` whenever metadata is on never raises the
`KeyError`. -/
theorem processPost_no_keyErr (cfg : ScraperConfig) (dir : String)
    (media : String → MediaResult) (writeOk : String → Bool) (p : Child)
    (h : cfg.include_metadata = true → p.data.id.isSome = true) :
    (processPost cfg dir media writeOk p).keyErr = false := by
  cases hb : (processPost cfg dir media writeOk p).keyErr
  · rfl
  · obtain ⟨h1, h2⟩ := processPost_keyErr_imp cfg dir media writeOk p hb
    have h3 := h h1
    rw [h2] at h3
    cases h3

/-- Exactly the posts passing the url and filename checks get a media GET. -/
theorem processPost_gets_eq (cfg : ScraperConfig) (dir : String)
    (media : String → MediaResult) (writeOk : String → Bool) (p : Child) :
    (processPost cfg dir media writeOk p).gets = (attemptedUrl p).toList := by
  rcases p with ⟨⟨u0, pid, payload⟩⟩
  cases u0 with
  | none => rfl
  | some u =>
      by_cases hf : skipFilename u = true
      · simp [processPost, attemptedUrl, hf, skipped]
      · cases hm : media u with
        | transportError => simp [processPost, attemptedUrl, hf, hm]
        | ok content =>
            cases hw : writeOk (mediaPath dir (lastSegment u)) with
            | false => simp [processPost, attemptedUrl, hf, hm, hw]
            | true =>
                by_cases hmeta : cfg.include_metadata = true
                · cases pid with
                  | none => simp [processPost, attemptedUrl, hf, hm, hw, hmeta]
                  | some i =>
                      cases hw2 : writeOk (metaPath dir i) with
                      | false =>
                          simp [processPost, attemptedUrl, hf, hm, hw, hw2, hmeta]
                      | true =>
                          simp [processPost, attemptedUrl, hf, hm, hw, hw2, hmeta]
                · simp [processPost, attemptedUrl, hf, hm, hw, hmeta]

/-- A failed media GET: the error is logged for that item, nothing is
written, and the exception is caught (no `KeyError`). -/
theorem processPost_media_fail (cfg : ScraperConfig) (dir : String)
    (media : String → MediaResult) (writeOk : String → Bool) (p : Child) (url : String)
    (hu : attemptedUrl p = some url) (hm : media url = MediaResult.transportError) :
    processPost cfg dir media writeOk p
      = ⟨[url], [], [LogMsg.downloadError url], false⟩ := by
  obtain ⟨hurl, hskip⟩ := attemptedUrl_eq_some p url hu
  rcases p with ⟨⟨u0, pid, payload⟩⟩
  simp only at hurl
  subst hurl
  simp [processPost, hskip, hm]

/-- A failed media write: the `IOError` is logged for that item and the
metadata write is never reached. -/
theorem processPost_media_write_fail (cfg : ScraperConfig) (dir : String)
    (media : String → MediaResult) (writeOk : String → Bool) (p : Child)
    (url content : String)
    (hu : attemptedUrl p = some url) (hm : media url = MediaResult.ok content)
    (hw : writeOk (mediaPath dir (lastSegment url)) = false) :
    processPost cfg dir media writeOk p
      = ⟨[url], [], [LogMsg.downloadError url], false⟩ := by
  obtain ⟨hurl, hskip⟩ := attemptedUrl_eq_some p url hu
  rcases p with ⟨⟨u0, pid, payload⟩⟩
  simp only at hurl
  subst hurl
  simp [processPost, hskip, hm, hw]

/-- Metadata enabled but the record has no `id` key: the media GET and the
media write happen, then `post_json['data']['id']` raises the uncaught
`KeyError`. -/
theorem processPost_keyError_case (cfg : ScraperConfig) (dir : String)
    (media : String → MediaResult) (writeOk : String → Bool) (p : Child)
    (url content : String)
    (hmeta : cfg.include_metadata = true)
    (hu : attemptedUrl p = some url) (hid : p.data.id = none)
    (hm : media url = MediaResult.ok content)
    (hw : writeOk (mediaPath dir (lastSegment url)) = true) :
    processPost cfg dir media writeOk p
      = ⟨[url], [(mediaPath dir (lastSegment url), FileContent.media content)],
          [], true⟩ := by
  obtain ⟨hurl, hskip⟩ := attemptedUrl_eq_some p url hu
  rcases p with ⟨⟨u0, pid, payload⟩⟩
  simp only at hurl hid
  subst hurl
  subst hid
  simp [processPost, hskip, hm, hw, hmeta]

/-- The media write succeeds, the metadata write fails: the media file stays
written, the `IOError` is logged, the loop continues. -/
theorem processPost_meta_write_fail (cfg : ScraperConfig) (dir : String)
    (media : String → MediaResult) (writeOk : String → Bool) (p : Child)
    (url pid content : String)
    (hmeta : cfg.include_metadata = true)
    (hu : attemptedUrl p = some url) (hid : p.data.id = some pid)
    (hm : media url = MediaResult.ok content)
    (hw : writeOk (mediaPath dir (lastSegment url)) = true)
    (hw2 : writeOk (metaPath dir pid) = false) :
    processPost cfg dir media writeOk p
      = ⟨[url], [(mediaPath dir (lastSegment url), FileContent.media content)],
          [LogMsg.downloadError url], false⟩ := by
  obtain ⟨hurl, hskip⟩ := attemptedUrl_eq_some p url hu
  rcases p with ⟨⟨u0, pid0, payload⟩⟩
  simp only at hurl hid
  subst hurl
  subst hid
  simp [processPost, hskip, hm, hw, hw2, hmeta]

/-- The fully successful metadata path: the media file is written first,
the metadata JSON second. -/
theorem processPost_success_meta (cfg : ScraperConfig) (dir : String)
    (media : String → MediaResult) (writeOk : String → Bool) (p : Child)
    (url pid content : String)
    (hmeta : cfg.include_metadata = true)
    (hu : attemptedUrl p = some url) (hid : p.data.id = some pid)
    (hm : media url = MediaResult.ok content)
    (hw : writeOk (mediaPath dir (lastSegment url)) = true)
    (hw2 : writeOk (metaPath dir pid) = true) :
    processPost cfg dir media writeOk p
      = ⟨[url], [(mediaPath dir (lastSegment url), FileContent.media content),
            (metaPath dir pid, FileContent.meta p.data)],
          [], false⟩ := by
  obtain ⟨hurl, hskip⟩ := attemptedUrl_eq_some p url hu
  rcases p with ⟨⟨u0, pid0, payload⟩⟩
  simp only at hurl hid
  subst hurl
  subst hid
  simp [processPost, hskip, hm, hw, hw2, hmeta]

/-- Splitting the download loop at a prefix none of whose iterations raises
the `KeyError`: traces concatenate and the tail decides the result. -/
theorem downloadLoop_append (cfg : ScraperConfig) (dir : String)
    (media : String → MediaResult) (writeOk : String → Bool) (pre : List Child) :
    ∀ xs : List Child,
      (∀ p ∈ pre, (processPost cfg dir media writeOk p).keyErr = false) →
      downloadLoop cfg dir media writeOk (pre ++ xs)
        = ⟨(downloadLoop cfg dir media writeOk pre).gets
              ++ (downloadLoop cfg dir media writeOk xs).gets,
            (downloadLoop cfg dir media writeOk pre).writes
              ++ (downloadLoop cfg dir media writeOk xs).writes,
            (downloadLoop cfg dir media writeOk pre).logs
              ++ (downloadLoop cfg dir media writeOk xs).logs,
            (downloadLoop cfg dir media writeOk xs).result⟩ := by
  induction pre with
  | nil =>
      intro xs _
      simp [downloadLoop]
  | cons p pre' ih =>
      intro xs hpre
      have hk : (processPost cfg dir media writeOk p).keyErr = false :=
        hpre p (List.mem_cons_self p pre')
      rw [List.cons_append, downloadLoop, downloadLoop]
      simp only [hk, Bool.false_eq_true, if_false]
      rw [ih xs (fun q hq => hpre q (List.mem_cons_of_mem _ hq))]
      simp [List.append_assoc]

/-- With no `KeyError` anywhere, the loop attempts every record and
finishes. -/
theorem downloadLoop_total (cfg : ScraperConfig) (dir : String)
    (media : String → MediaResult) (writeOk : String → Bool) (posts : List Child) :
    (∀ p ∈ posts, (processPost cfg dir media writeOk p).keyErr = false) →
    (downloadLoop cfg dir media writeOk posts).result = DownloadResult.completed
    ∧ (downloadLoop cfg dir media writeOk posts).gets
        = posts.filterMap attemptedUrl := by
  induction posts with
  | nil => intro _; exact ⟨rfl, rfl⟩
  | cons p rest ih =>
      intro h
      have hk : (processPost cfg dir media writeOk p).keyErr = false :=
        h p (List.mem_cons_self p rest)
      obtain ⟨ih1, ih2⟩ := ih (fun q hq => h q (List.mem_cons_of_mem _ hq))
      rw [downloadLoop]
      simp only [hk, Bool.false_eq_true, if_false]
      refine ⟨ih1, ?_⟩
      rw [List.filterMap_cons]
      cases hu : attemptedUrl p with
      | none =>
          have := processPost_gets_eq cfg dir media writeOk p
          rw [hu] at this
          simp only [this, Option.toList, List.nil_append]
          exact ih2
      | some url =>
          have := processPost_gets_eq cfg dir media writeOk p
          rw [hu] at this
          simp only [this, Option.toList, List.singleton_append]
          rw [ih2]

/-- Every log line of a non-aborting iteration survives into the loop's
log. -/
theorem downloadLoop_logs_mem (cfg : ScraperConfig) (dir : String)
    (media : String → MediaResult) (writeOk : String → Bool) :
    ∀ posts : List Child,
      (∀ p ∈ posts, (processPost cfg dir media writeOk p).keyErr = false) →
      ∀ p ∈ posts, ∀ l ∈ (processPost cfg dir media writeOk p).logs,
        l ∈ (downloadLoop cfg dir media writeOk posts).logs := by
  intro posts
  induction posts with
  | nil => intro _ p hp; cases hp
  | cons q rest ih =>
      intro hk p hp l hl
      have hkq : (processPost cfg dir media writeOk q).keyErr = false :=
        hk q (List.mem_cons_self q rest)
      rw [downloadLoop]
      simp only [hkq, Bool.false_eq_true, if_false]
      rcases List.mem_cons.mp hp with h | h
      · subst h
        exact List.mem_append.mpr (Or.inl hl)
      · exact List.mem_append.mpr
          (Or.inr (ih (fun r hr => hk r (List.mem_cons_of_mem _ hr)) p h l hl))

/-! ### Claim theorems -/

/-- C1: for every nonzero limit `L`, every trace of pages with non-null
cursors, no transport error and no 404, whose total post count exceeds `L`,
`fetch_posts` returns exactly the first `L` records of the concatenated
pages — pages in request order, records within a page in service order, no
reordering or deduplication, truncating mid-page at the limit — and on any
trace whatever, a returned post list never exceeds the nonzero limit. -/
theorem claim_C1_paginator_limit (cfg : ScraperConfig) (pages : List Response)
    (hL : 0 < cfg.limit)
    (hgood : ∀ p ∈ pages, goodPage p = true)
    (hP : cfg.limit < totalPosts pages) :
    (fetch_posts cfg pages).result = some ((allChildren pages).take cfg.limit)
    ∧ ∀ (otherPages : List Response) (l : List Child),
        (fetch_posts cfg otherPages).result = some l → l.length ≤ cfg.limit := by
  constructor
  · have h := fetchLoop_reaches_limit cfg (by omega) pages [] 0 [] []
      hgood (by omega) (by omega)
    simpa [fetch_posts] using h
  · intro otherPages l hres
    have h := fetchLoop_length_le cfg (by omega) otherPages true [] 0 [] [] l
      (by omega) hres
    simpa using h

/-- C1, instantiated: cap 2, limit 3, two pages of two posts: the first
three records come back and the bound holds. -/
theorem claim_C1_witness :
    (fetch_posts cfgC1 pagesC1).result = some ((allChildren pagesC1).take cfgC1.limit)
    ∧ ∀ (otherPages : List Response) (l : List Child),
        (fetch_posts cfgC1 otherPages).result = some l → l.length ≤ cfgC1.limit :=
  claim_C1_paginator_limit cfgC1 pagesC1 (by decide) (by decide) (by decide)

/-- C2 as stated is false: with cap 2 and limit 3, after the first page
contributes 2 records the second request still asks for
`min(cap, limit) = 2` posts, not `min(cap, limit - accumulated) = 1`: the
code computes `min(self.limit_per_page, self.limit or self.limit_per_page)`
with no dependence on the accumulated count. -/
theorem claim_C2_counterexample :
    (fetch_posts cfgC2 pagesC2).requests = [2, 2]
    ∧ ((2 : Nat) ≠ min cfgC2.limit_per_page (cfgC2.limit - 2)) := by
  constructor
  · rfl
  · decide

/-- C2 amended: every page request issued while a nonzero limit is active
asks for `min(per-page cap, limit)` posts — the total limit, not the
remaining quota; the requested size does not shrink as records
accumulate. -/
theorem claim_C2_page_size (cfg : ScraperConfig) (pages : List Response)
    (hL : cfg.limit ≠ 0) :
    ∀ r ∈ (fetch_posts cfg pages).requests, r = min cfg.limit_per_page cfg.limit := by
  have hsize : pageSize cfg = min cfg.limit_per_page cfg.limit := by
    unfold pageSize
    rw [if_neg hL]
  have key : ∀ (ps : List Response) (b : Bool) (acc : List Child) (count : Nat)
      (reqs : List Nat) (logs : List LogMsg),
      (∀ r ∈ reqs, r = pageSize cfg) →
      ∀ r ∈ (fetchLoop cfg ps b acc count reqs logs).requests, r = pageSize cfg := by
    intro ps
    induction ps with
    | nil =>
        intro b acc count reqs logs hinv r hr
        rw [fetchLoop] at hr
        by_cases hg : b = true ∧ (cfg.limit = 0 ∨ count < cfg.limit)
        · rw [if_pos hg] at hr; exact hinv r hr
        · rw [if_neg hg] at hr; exact hinv r hr
    | cons p rest ih =>
        intro b acc count reqs logs hinv r hr
        have hinv2 : ∀ x ∈ reqs ++ [pageSize cfg], x = pageSize cfg := by
          intro x hx
          rcases List.mem_append.mp hx with h | h
          · exact hinv x h
          · simpa using h
        rw [fetchLoop] at hr
        by_cases hg : b = true ∧ (cfg.limit = 0 ∨ count < cfg.limit)
        · rw [if_pos hg] at hr
          cases p with
          | transportError => exact hinv2 r hr
          | body err children after =>
              by_cases h404 : err = some 404
              · simp only [h404, if_true] at hr
                exact hinv2 r hr
              · simp only [h404, if_false] at hr
                exact ih after.isSome _ _ _ logs hinv2 r hr
        · rw [if_neg hg] at hr; exact hinv r hr
  intro r hr
  rw [← hsize]
  exact key pages true [] 0 [] [] (by intro x hx; simp at hx) r hr

/-- C2 amended, instantiated: with cap 2 and limit 3, the first request asks
for `min(2, 3) = 2` posts. -/
theorem claim_C2_witness : (2 : Nat) = min cfgC2.limit_per_page cfgC2.limit :=
  claim_C2_page_size cfgC2 pagesC2 (by decide) 2 (by decide)

/-- C3 as stated is false in one respect: a transport-level failure and a
structured 404 both make `fetch_posts` return Python `None` — the value the
caller receives is identical, so the fetch-error outcome is not
distinguishable by the caller from the UserNotFound outcome. -/
theorem claim_C3_counterexample :
    (fetch_posts cfgC3 [Response.transportError]).result = none
    ∧ (fetch_posts cfgC3 [Response.transportError]).result
        = (fetch_posts cfgC3 [Response.body (some 404) [] none]).result := by
  constructor
  · rfl
  · rfl

/-- C3 amended: a transport-level failure on any page aborts the run —
`fetch_posts` returns `None`, nothing is downloaded, and exactly one request
was issued for the failing page (no retry) — and the failure is reported
through the log line `fetchError`, which differs from the `userNotFound`
log line; the returned value itself is `None` in both cases and does not
distinguish them. -/
theorem claim_C3_transport_aborts (cfg : ScraperConfig) (ps rest : List Response)
    (username : String) (media : String → MediaResult) (writeOk : String → Bool)
    (hgood : ∀ p ∈ ps, goodPage p = true)
    (hactive : cfg.limit = 0 ∨ totalPosts ps < cfg.limit) :
    (fetch_posts cfg (ps ++ Response.transportError :: rest)).result = none
    ∧ (fetch_posts cfg (ps ++ Response.transportError :: rest)).logs
        = [LogMsg.fetchError]
    ∧ (fetch_posts cfg (ps ++ Response.transportError :: rest)).requests
        = List.replicate (ps.length + 1) (pageSize cfg)
    ∧ (download_posts cfg username (ps ++ Response.transportError :: rest)
        media writeOk).writes = []
    ∧ LogMsg.fetchError ≠ LogMsg.userNotFound := by
  have hstep : fetch_posts cfg (ps ++ Response.transportError :: rest)
      = ⟨none, List.replicate (ps.length + 1) (pageSize cfg),
          [LogMsg.fetchError], false⟩ := by
    unfold fetch_posts
    rw [fetchLoop_append_good cfg ps (Response.transportError :: rest) [] 0 [] []
      hgood (by omega)]
    simp only [List.nil_append, Nat.zero_add]
    rw [fetchLoop_transportError cfg rest (allChildren ps) (totalPosts ps)
      (List.replicate ps.length (pageSize cfg)) [] (by omega)]
    rw [← List.replicate_succ']
    simp
  refine ⟨by rw [hstep], by rw [hstep], by rw [hstep], ?_, by intro h; cases h⟩
  unfold download_posts
  rw [hstep]

/-- C3 amended, instantiated: one good page then a transport failure. -/
theorem claim_C3_witness :
    (fetch_posts cfgC3 (psC3 ++ Response.transportError :: [])).result = none
    ∧ (fetch_posts cfgC3 (psC3 ++ Response.transportError :: [])).logs
        = [LogMsg.fetchError]
    ∧ (fetch_posts cfgC3 (psC3 ++ Response.transportError :: [])).requests
        = List.replicate (psC3.length + 1) (pageSize cfgC3)
    ∧ (download_posts cfgC3 "alice" (psC3 ++ Response.transportError :: [])
        mediaOkAll writeAll).writes = []
    ∧ LogMsg.fetchError ≠ LogMsg.userNotFound :=
  claim_C3_transport_aborts cfgC3 psC3 [] "alice" mediaOkAll writeAll
    (by decide) (by decide)

/-- C4: a body whose structured `error` field is 404 — on any page, also
after earlier pages contributed records — makes `fetch_posts` return `None`
immediately, with the not-found log line and all partial accumulation
discarded, and `download_posts` then performs zero file writes. -/
theorem claim_C4_not_found_discards (cfg : ScraperConfig) (ps : List Response)
    (children : List Child) (after : Option String) (rest : List Response)
    (username : String) (media : String → MediaResult) (writeOk : String → Bool)
    (hgood : ∀ p ∈ ps, goodPage p = true)
    (hactive : cfg.limit = 0 ∨ totalPosts ps < cfg.limit) :
    (fetch_posts cfg (ps ++ Response.body (some 404) children after :: rest)).result
        = none
    ∧ (fetch_posts cfg (ps ++ Response.body (some 404) children after :: rest)).logs
        = [LogMsg.userNotFound]
    ∧ (download_posts cfg username
        (ps ++ Response.body (some 404) children after :: rest) media writeOk).writes
        = [] := by
  have hstep : fetch_posts cfg (ps ++ Response.body (some 404) children after :: rest)
      = ⟨none, List.replicate (ps.length + 1) (pageSize cfg),
          [LogMsg.userNotFound], false⟩ := by
    unfold fetch_posts
    rw [fetchLoop_append_good cfg ps (Response.body (some 404) children after :: rest)
      [] 0 [] [] hgood (by omega)]
    simp only [List.nil_append, Nat.zero_add]
    rw [fetchLoop_notFound cfg children after rest (allChildren ps) (totalPosts ps)
      (List.replicate ps.length (pageSize cfg)) [] (by omega)]
    rw [← List.replicate_succ']
    simp
  refine ⟨by rw [hstep], by rw [hstep], ?_⟩
  unfold download_posts
  rw [hstep]

/-- C4, instantiated: a page with two records, then `{"error": 404}`: no
posts, the not-found log, zero writes even with metadata enabled. -/
theorem claim_C4_witness :
    (fetch_posts cfgC4 (psC4 ++ Response.body (some 404) [] none :: [])).result = none
    ∧ (fetch_posts cfgC4 (psC4 ++ Response.body (some 404) [] none :: [])).logs
        = [LogMsg.userNotFound]
    ∧ (download_posts cfgC4 "alice" (psC4 ++ Response.body (some 404) [] none :: [])
        mediaOkAll writeAll).writes = [] :=
  claim_C4_not_found_discards cfgC4 psC4 [] none [] "alice" mediaOkAll writeAll
    (by decide) (by decide)

/-- C8: with limit 0 (unlimited) and a complete listing — every page a body
without a 404, non-null cursors up to the last page, whose cursor is null —
`fetch_posts` returns every record the service holds and issues exactly one
request per page, terminating at the null cursor. -/
theorem claim_C8_unlimited_all (cfg : ScraperConfig) (pages : List Response)
    (h0 : cfg.limit = 0) (hwf : wfListing pages = true) :
    (fetch_posts cfg pages).result = some (allChildren pages)
    ∧ (fetch_posts cfg pages).requests = List.replicate pages.length (pageSize cfg) := by
  have h := fetchLoop_unlimited cfg h0 pages [] 0 [] [] hwf
  unfold fetch_posts
  rw [h]
  exact ⟨rfl, rfl⟩

/-- C8, instantiated: a two-page listing of three posts, all returned. -/
theorem claim_C8_witness :
    (fetch_posts cfgC8 pagesC8).result = some (allChildren pagesC8)
    ∧ (fetch_posts cfgC8 pagesC8).requests
        = List.replicate pagesC8.length (pageSize cfgC8) :=
  claim_C8_unlimited_all cfgC8 pagesC8 (by decide) (by decide)

/-- C5: one item's media-GET failure or media-write failure is logged for
that item and is non-fatal: the loop still attempts every record passing the
URL checks (in order) and reaches completion, however many items fail. The
post list must not trigger the separate metadata `KeyError` (each record has
an `id` whenever metadata is on). -/
theorem claim_C5_item_failures_non_fatal (cfg : ScraperConfig) (dir : String)
    (media : String → MediaResult) (writeOk : String → Bool) (posts : List Child)
    (hid : cfg.include_metadata = true → ∀ p ∈ posts, p.data.id.isSome = true) :
    (downloadLoop cfg dir media writeOk posts).result = DownloadResult.completed
    ∧ (downloadLoop cfg dir media writeOk posts).gets = posts.filterMap attemptedUrl
    ∧ ∀ p ∈ posts, ∀ url, attemptedUrl p = some url →
        (media url = MediaResult.transportError
          ∨ writeOk (mediaPath dir (lastSegment url)) = false) →
        LogMsg.downloadError url ∈ (downloadLoop cfg dir media writeOk posts).logs := by
  have hk : ∀ p ∈ posts, (processPost cfg dir media writeOk p).keyErr = false :=
    fun p hp => processPost_no_keyErr cfg dir media writeOk p (fun hm => hid hm p hp)
  obtain ⟨h1, h2⟩ := downloadLoop_total cfg dir media writeOk posts hk
  refine ⟨h1, h2, ?_⟩
  intro p hp url hu hfail
  have hlog : LogMsg.downloadError url ∈ (processPost cfg dir media writeOk p).logs := by
    rcases hfail with hm | hw
    · rw [processPost_media_fail cfg dir media writeOk p url hu hm]
      exact List.mem_singleton.mpr rfl
    · cases hm : media url with
      | transportError =>
          rw [processPost_media_fail cfg dir media writeOk p url hu hm]
          exact List.mem_singleton.mpr rfl
      | ok content =>
          rw [processPost_media_write_fail cfg dir media writeOk p url content hu hm hw]
          exact List.mem_singleton.mpr rfl
  exact downloadLoop_logs_mem cfg dir media writeOk posts hk p hp
    (LogMsg.downloadError url) hlog

/-- C5, instantiated: the first post's GET fails, the second is still
attempted, succeeds, and the run completes. -/
theorem claim_C5_witness :
    (downloadLoop cfgC5 "/dl" mediaC5 writeAll [postA5, postB5]).result
        = DownloadResult.completed
    ∧ (downloadLoop cfgC5 "/dl" mediaC5 writeAll [postA5, postB5]).gets
        = [postA5, postB5].filterMap attemptedUrl
    ∧ ∀ p ∈ [postA5, postB5], ∀ url, attemptedUrl p = some url →
        (mediaC5 url = MediaResult.transportError
          ∨ writeAll (mediaPath "/dl" (lastSegment url)) = false) →
        LogMsg.downloadError url
          ∈ (downloadLoop cfgC5 "/dl" mediaC5 writeAll [postA5, postB5]).logs :=
  claim_C5_item_failures_non_fatal cfgC5 "/dl" mediaC5 writeAll [postA5, postB5]
    (by decide)

/-- C6: a record with no `url` field, or whose filename (final URL segment)
is empty or has no dot, is skipped before any write or network call: no
media file, no metadata file, no GET, no log — also with metadata
enabled. -/
theorem claim_C6_skip_before_io (cfg : ScraperConfig) (dir : String)
    (media : String → MediaResult) (writeOk : String → Bool) (p : Child)
    (h : p.data.url = none ∨ ∃ url, p.data.url = some url ∧ skipFilename url = true) :
    (processPost cfg dir media writeOk p).writes = []
    ∧ (processPost cfg dir media writeOk p).gets = []
    ∧ (processPost cfg dir media writeOk p).logs = [] := by
  rw [processPost_skip cfg dir media writeOk p h]
  exact ⟨rfl, rfl, rfl⟩

/-- C6, instantiated: `url = "https://example.com/gallery"` (no dot in the
final segment) is skipped entirely, metadata enabled. -/
theorem claim_C6_witness :
    (processPost cfgC6 "/dl" mediaOkAll writeAll postC6).writes = []
    ∧ (processPost cfgC6 "/dl" mediaOkAll writeAll postC6).gets = []
    ∧ (processPost cfgC6 "/dl" mediaOkAll writeAll postC6).logs = [] :=
  claim_C6_skip_before_io cfgC6 "/dl" mediaOkAll writeAll postC6
    (Or.inr ⟨"https://example.com/gallery", rfl, by decide⟩)

/-- C7: with metadata enabled, a failed media GET writes neither the media
file nor the metadata file, and whenever a metadata entry is written at all,
the media GET returned 2xx, the media write succeeded, and the media file
write comes first in the item's write sequence. -/
theorem claim_C7_meta_only_after_media (cfg : ScraperConfig) (dir : String)
    (media : String → MediaResult) (writeOk : String → Bool) (p : Child) (url : String)
    (hurl : p.data.url = some url)
    (hmeta : cfg.include_metadata = true) :
    ((media url = MediaResult.transportError) →
        (processPost cfg dir media writeOk p).writes = [])
    ∧ (∀ e ∈ (processPost cfg dir media writeOk p).writes,
        (∃ d, e.2 = FileContent.meta d) →
        ∃ content, media url = MediaResult.ok content
          ∧ writeOk (mediaPath dir (lastSegment url)) = true
          ∧ (processPost cfg dir media writeOk p).writes.head?
              = some (mediaPath dir (lastSegment url), FileContent.media content)) := by
  by_cases hf : skipFilename url = true
  · rw [processPost_skip cfg dir media writeOk p (Or.inr ⟨url, hurl, hf⟩)]
    exact ⟨fun _ => rfl, fun e he => absurd he (List.not_mem_nil e)⟩
  · have hu : attemptedUrl p = some url := by
      rcases p with ⟨⟨u0, pid, payload⟩⟩
      simp only at hurl
      subst hurl
      simp [attemptedUrl, hf]
    cases hm : media url with
    | transportError =>
        rw [processPost_media_fail cfg dir media writeOk p url hu hm]
        exact ⟨fun _ => rfl, fun e he => absurd he (List.not_mem_nil e)⟩
    | ok content =>
        constructor
        · intro hcon
          cases hcon
        intro e he hE
        cases hw : writeOk (mediaPath dir (lastSegment url)) with
        | false =>
            rw [processPost_media_write_fail cfg dir media writeOk p url content
              hu hm hw] at he
            exact absurd he (List.not_mem_nil e)
        | true =>
            cases hpid : p.data.id with
            | none =>
                rw [processPost_keyError_case cfg dir media writeOk p url content
                  hmeta hu hpid hm hw] at he
                obtain ⟨d, hd⟩ := hE
                have he2 := List.mem_singleton.mp he
                rw [he2] at hd
                cases hd
            | some pid =>
                cases hw2 : writeOk (metaPath dir pid) with
                | false =>
                    rw [processPost_meta_write_fail cfg dir media writeOk p url pid
                      content hmeta hu hpid hm hw hw2] at he
                    obtain ⟨d, hd⟩ := hE
                    have he2 := List.mem_singleton.mp he
                    rw [he2] at hd
                    cases hd
                | true =>
                    rw [processPost_success_meta cfg dir media writeOk p url pid
                      content hmeta hu hpid hm hw hw2]
                    exact ⟨content, rfl, rfl, rfl⟩

/-- C7, instantiated: a direct-file post with metadata enabled: both
conjuncts hold at `abc123.jpg`. -/
theorem claim_C7_witness :
    ((mediaOkAll "https://example.com/img/abc123.jpg" = MediaResult.transportError) →
        (processPost cfgC7 "/dl" mediaOkAll writeAll postC7).writes = [])
    ∧ (∀ e ∈ (processPost cfgC7 "/dl" mediaOkAll writeAll postC7).writes,
        (∃ d, e.2 = FileContent.meta d) →
        ∃ content, mediaOkAll "https://example.com/img/abc123.jpg"
              = MediaResult.ok content
          ∧ writeAll (mediaPath "/dl"
              (lastSegment "https://example.com/img/abc123.jpg")) = true
          ∧ (processPost cfgC7 "/dl" mediaOkAll writeAll postC7).writes.head?
              = some (mediaPath "/dl" (lastSegment "https://example.com/img/abc123.jpg"),
                  FileContent.media content)) :=
  claim_C7_meta_only_after_media cfgC7 "/dl" mediaOkAll writeAll postC7
    "https://example.com/img/abc123.jpg" rfl rfl

/-- C9: metadata enabled, a record passing the URL checks whose media GET
and media write succeed but whose `data` has no `id` key: the `KeyError`
escapes the per-item handler, the run aborts there, and no later record is
attempted. -/
theorem claim_C9_keyerror_aborts (cfg : ScraperConfig) (dir : String)
    (media : String → MediaResult) (writeOk : String → Bool)
    (pre rest : List Child) (bad : Child) (url content : String)
    (hmeta : cfg.include_metadata = true)
    (hpre : ∀ p ∈ pre, p.data.id.isSome = true)
    (hu : attemptedUrl bad = some url)
    (hid : bad.data.id = none)
    (hm : media url = MediaResult.ok content)
    (hw : writeOk (mediaPath dir (lastSegment url)) = true) :
    (downloadLoop cfg dir media writeOk (pre ++ bad :: rest)).result
        = DownloadResult.keyError
    ∧ (downloadLoop cfg dir media writeOk (pre ++ bad :: rest)).gets
        = pre.filterMap attemptedUrl ++ [url] := by
  have hkpre : ∀ p ∈ pre, (processPost cfg dir media writeOk p).keyErr = false :=
    fun p hp => processPost_no_keyErr cfg dir media writeOk p (fun _ => hpre p hp)
  have hbad := processPost_keyError_case cfg dir media writeOk bad url content
    hmeta hu hid hm hw
  obtain ⟨hc, hg⟩ := downloadLoop_total cfg dir media writeOk pre hkpre
  rw [downloadLoop_append cfg dir media writeOk pre (bad :: rest) hkpre]
  constructor
  · rw [downloadLoop]
    simp [hbad]
  · rw [downloadLoop]
    simp [hbad, hg]

/-- C9, instantiated: the second of three posts lacks `id`; the run aborts
after its GET, the third post is never attempted. -/
theorem claim_C9_witness :
    (downloadLoop cfgC9 "/dl" mediaOkAll writeAll
        ([postPre9] ++ postBad9 :: [postAfter9])).result = DownloadResult.keyError
    ∧ (downloadLoop cfgC9 "/dl" mediaOkAll writeAll
        ([postPre9] ++ postBad9 :: [postAfter9])).gets
        = [postPre9].filterMap attemptedUrl ++ ["https://x.com/b.jpg"] :=
  claim_C9_keyerror_aborts cfgC9 "/dl" mediaOkAll writeAll [postPre9] [postAfter9]
    postBad9 "https://x.com/b.jpg" "BYTES" rfl (by decide) (by decide) rfl rfl rfl

/-- C10: when the media write of one record succeeds and its metadata write
then fails, the media file's write stays in the run's write sequence
(nothing rolls it back), writes of earlier records are untouched, the
failure is logged, and the loop goes on to the remaining records. -/
theorem claim_C10_media_survives_meta_fail (cfg : ScraperConfig) (dir : String)
    (media : String → MediaResult) (writeOk : String → Bool)
    (pre rest : List Child) (p : Child) (url pid content : String)
    (hmeta : cfg.include_metadata = true)
    (hpre : ∀ q ∈ pre, q.data.id.isSome = true)
    (hu : attemptedUrl p = some url)
    (hid : p.data.id = some pid)
    (hm : media url = MediaResult.ok content)
    (hw : writeOk (mediaPath dir (lastSegment url)) = true)
    (hw2 : writeOk (metaPath dir pid) = false) :
    (downloadLoop cfg dir media writeOk (pre ++ p :: rest)).writes
      = (downloadLoop cfg dir media writeOk pre).writes
          ++ (mediaPath dir (lastSegment url), FileContent.media content)
          :: (downloadLoop cfg dir media writeOk rest).writes
    ∧ (downloadLoop cfg dir media writeOk (pre ++ p :: rest)).result
        = (downloadLoop cfg dir media writeOk rest).result
    ∧ LogMsg.downloadError url
        ∈ (downloadLoop cfg dir media writeOk (pre ++ p :: rest)).logs := by
  have hkpre : ∀ q ∈ pre, (processPost cfg dir media writeOk q).keyErr = false :=
    fun q hq => processPost_no_keyErr cfg dir media writeOk q (fun _ => hpre q hq)
  have hp := processPost_meta_write_fail cfg dir media writeOk p url pid content
    hmeta hu hid hm hw hw2
  rw [downloadLoop_append cfg dir media writeOk pre (p :: rest) hkpre]
  refine ⟨?_, ?_, ?_⟩
  · rw [downloadLoop]
    simp [hp]
  · rw [downloadLoop]
    simp [hp]
  · rw [downloadLoop]
    simp [hp]

/-- C10, instantiated: `m.png` is written, `mid.json` fails, the media
write remains the run's sole write and the failure is logged. -/
theorem claim_C10_witness :
    (downloadLoop cfgC10 "/dl" mediaOkAll writeC10 ([] ++ postMid10 :: [])).writes
      = (downloadLoop cfgC10 "/dl" mediaOkAll writeC10 []).writes
          ++ (mediaPath "/dl" (lastSegment "https://x.com/m.png"),
                FileContent.media "BYTES")
          :: (downloadLoop cfgC10 "/dl" mediaOkAll writeC10 []).writes
    ∧ (downloadLoop cfgC10 "/dl" mediaOkAll writeC10 ([] ++ postMid10 :: [])).result
        = (downloadLoop cfgC10 "/dl" mediaOkAll writeC10 []).result
    ∧ LogMsg.downloadError "https://x.com/m.png"
        ∈ (downloadLoop cfgC10 "/dl" mediaOkAll writeC10 ([] ++ postMid10 :: [])).logs :=
  claim_C10_media_survives_meta_fail cfgC10 "/dl" mediaOkAll writeC10 [] []
    postMid10 "https://x.com/m.png" "mid" "BYTES" rfl (by decide) (by decide)
    rfl rfl (by decide) (by decide)

end RedditScraper
